import Mathlib

/-!
Verification of the Temporal queue manager (`queue/queue.go`).

The Go code is embedded shallowly: every broker / OS interaction performed
through the AMQP channel (or through `os`, the database driver and the
logger) is recorded in an explicit trace of operations, and an environment
value decides the outcome of each fallible call.  Each Go function becomes
a Lean function returning its result together with the trace of operations
it performed, in order.
-/

namespace Temporal

/-- Queue name constants of the queue package (`types.go` is not part of the
shown sources).  Modelled from the spec: queue categories form a fixed,
closed enumeration of distinct identities. -/
def DatabaseFileAddQueue : String := "dfa-queue"

def IpfsPinQueue : String := "ipfs-pin-queue"

def IpfsFileQueue : String := "ipfs-file-queue"

def EmailSendQueue : String := "email-send-queue"

def IpnsEntryQueue : String := "ipns-entry-queue"

def IpfsKeyCreationQueue : String := "ipfs-key-creation-queue"

def IpfsClusterPinQueue : String := "ipfs-cluster-add-queue"

/-- Exchange name constants of the queue package.  Modelled from the spec:
exchange categories form a fixed, closed enumeration of distinct
identities. -/
def PinExchange : String := "ipfs-pin"

def PinRemovalExchange : String := "ipfs-pin-removal"

def IpfsKeyExchange : String := "ipfs-key-exchange"

/-- `amqp.Persistent` delivery mode (streadway/amqp). -/
def amqpPersistent : Nat := 2

/-- One observable operation of the queue manager: a broker call on the
channel, an OS call, a database call, or a log emission. -/
inductive Op (Body : Type) where
  | dial (url : String)
  | channelOpen
  | qos (prefetchCount prefetchSize : Nat) (globalFlag : Bool)
  | logFileOpen (path : String)
  | hostnameLookup
  | exchangeDeclare (name kind : String) (durable autoDelete internal noWait : Bool)
  | queueDeclare (name : String) (durable autoDelete exclusive noWait : Bool)
  | queueBind (queue routingKey exchange : String) (noWait : Bool)
  | consume (queue consumer : String) (autoAck exclusive noLocal noWait : Bool)
  | marshal (body : Body)
  | publish (exchange routingKey : String) (mandatory immediate : Bool)
      (deliveryMode : Nat) (contentType : String) (payload : List Nat)
  | dbOpen
  | channelClose
  | connectionClose
  | logInfo (msg : String)
  | logError (msg : String)
  deriving Repr, DecidableEq

/-- Environment oracle fixing the outcome of every fallible external call. -/
structure Env (Body : Type) where
  dialOk : Bool
  channelOpenOk : Bool
  qosOk : Bool
  logFileOk : Bool
  hostnameRes : Except String String
  exchangeDeclareOk : String → Bool
  queueDeclareOk : String → Bool
  queueBindOk : String → String → Bool
  consumeOk : String → Bool
  marshalRes : Body → Except String (List Nat)
  publishOk : Bool
  dbOk : Bool
  channelCloseOk : Bool
  connectionCloseOk : Bool

/-- The mutable fields of `queue.Manager` relevant to the shown code.
`queue = none` models the `qm.queue` pointer being `nil`. -/
structure Manager where
  QueueName : String
  Service : String
  ExchangeName : String
  queue : Option String
  hasLogger : Bool
  deriving Repr, DecidableEq

/-- The category handlers that `ConsumeMessages` dispatches to. -/
inductive Handler where
  | processDatabaseFileAdds
  | proccessIPFSPins
  | proccessIPFSFiles
  | processMailSends
  | processIPNSEntryCreationRequests
  | processIPFSKeyCreation
  | processIPFSClusterPins
  deriving Repr, DecidableEq

/-- `Manager.parseQueueName`: looks up the host name and sets
`QueueName := host + "+" + queueName`. -/
def parseQueueName (env : Env Body) (qm : Manager) (queueName : String) :
    Except String Manager × List (Op Body) :=
  match env.hostnameRes with
  | .error e => (.error e, [.hostnameLookup])
  | .ok host =>
      (.ok { qm with QueueName := host ++ "+" ++ queueName }, [.hostnameLookup])

/-- `Manager.setupLogging`: opens the per-service log file and installs a
logger on the manager. -/
def setupLogging (env : Env Body) (qm : Manager) :
    Except String Manager × List (Op Body) :=
  let path := "/var/log/temporal/" ++ qm.QueueName ++ "_service.log"
  if env.logFileOk then
    (.ok { qm with hasLogger := true },
     [.logFileOpen path, .logInfo "Logging initialized"])
  else
    (.error "open log file failed", [.logFileOpen path])

/-- `Manager.OpenChannel`: opens a channel then sets `Qos(10, 0, false)`;
the error of `Qos` is returned. -/
def OpenChannel (env : Env Body) (qm : Manager) :
    Except String Manager × List (Op Body) :=
  if env.channelOpenOk then
    let logOps : List (Op Body) := if qm.hasLogger then [.logInfo "channel opened"] else []
    if env.qosOk then
      (.ok qm, .channelOpen :: logOps ++ [.qos 10 0 false])
    else
      (.error "qos failed", .channelOpen :: logOps ++ [.qos 10 0 false])
  else
    (.error "channel open failed", [.channelOpen])

/-- `Manager.DeclareQueue`: declares `qm.QueueName` durable, not
auto-deleted, not exclusive, and stores the declared queue on the
manager. -/
def DeclareQueue (env : Env Body) (qm : Manager) :
    Except String Manager × List (Op Body) :=
  if env.queueDeclareOk qm.QueueName then
    let logOps : List (Op Body) := if qm.hasLogger then [.logInfo "queue declared"] else []
    (.ok { qm with queue := some qm.QueueName },
     .queueDeclare qm.QueueName true false false false :: logOps)
  else
    (.error "queue declare failed", [.queueDeclare qm.QueueName true false false false])

/-- `Manager.DeclareIPFSPinExchange`.  Modelled from the spec: the function
is not among the shown sources; per §4.2 it declares the pin exchange in
fan-out mode (`DeclareExchange(ExchangeIdentity, mode)`), durably. -/
def DeclareIPFSPinExchange (env : Env Body) (_qm : Manager) :
    Except String Unit × List (Op Body) :=
  if env.exchangeDeclareOk PinExchange then
    (.ok (), [.exchangeDeclare PinExchange "fanout" true false false false])
  else
    (.error "exchange declare failed",
     [.exchangeDeclare PinExchange "fanout" true false false false])

/-- `Manager.DeclareIPFSKeyExchange`.  Modelled from the spec: the function
is not among the shown sources; per §4.2 it declares the key exchange in
fan-out mode, durably. -/
def DeclareIPFSKeyExchange (env : Env Body) (_qm : Manager) :
    Except String Unit × List (Op Body) :=
  if env.exchangeDeclareOk IpfsKeyExchange then
    (.ok (), [.exchangeDeclare IpfsKeyExchange "fanout" true false false false])
  else
    (.error "exchange declare failed",
     [.exchangeDeclare IpfsKeyExchange "fanout" true false false false])

/-- `setupConnection`: dials the broker. -/
def setupConnection (env : Env Body) (connectionURL : String) :
    Except String Unit × List (Op Body) :=
  if env.dialOk then (.ok (), [.dial connectionURL])
  else (.error "dial failed", [.dial connectionURL])

/-- `Initialize`: connects, opens a channel, sets names, optionally sets up
logging, declares the category's exchange (for the two exchange-backed
categories, prefixing the queue name with the host), and declares the
queue unless `publish` is set. -/
def Initialize (env : Env Body)
    (queueName connectionURL : String) (publish service : Bool) :
    Except String Manager × List (Op Body) :=
  match setupConnection env connectionURL with
  | (.error e, t) => (.error e, t)
  | (.ok _, t0) =>
    let qm : Manager :=
      { QueueName := "", Service := "", ExchangeName := "",
        queue := none, hasLogger := false }
    match OpenChannel env qm with
    | (.error e, t1) => (.error e, t0 ++ t1)
    | (.ok qm, t1) =>
      let qm := { qm with QueueName := queueName, Service := queueName }
      let step2 : Except String Manager × List (Op Body) :=
        if service then setupLogging env qm else (.ok qm, [])
      match step2 with
      | (.error e, t2) => (.error e, t0 ++ t1 ++ t2)
      | (.ok qm, t2) =>
        let step3 : Except String Manager × List (Op Body) :=
          if queueName = IpfsPinQueue then
            match parseQueueName env qm queueName with
            | (.error e, t) => (.error e, t)
            | (.ok qm, t) =>
              match DeclareIPFSPinExchange env qm with
              | (.error e, t') => (.error e, t ++ t')
              | (.ok _, t') => (.ok { qm with ExchangeName := PinExchange }, t ++ t')
          else if queueName = IpfsKeyCreationQueue then
            match parseQueueName env qm queueName with
            | (.error e, t) => (.error e, t)
            | (.ok qm, t) =>
              match DeclareIPFSKeyExchange env qm with
              | (.error e, t') => (.error e, t ++ t')
              | (.ok _, t') => (.ok { qm with ExchangeName := IpfsKeyExchange }, t ++ t')
          else (.ok qm, [])
        match step3 with
        | (.error e, t3) => (.error e, t0 ++ t1 ++ t2 ++ t3)
        | (.ok qm, t3) =>
          if publish then (.ok qm, t0 ++ t1 ++ t2 ++ t3)
          else
            match DeclareQueue env qm with
            | (.error e, t4) => (.error e, t0 ++ t1 ++ t2 ++ t3 ++ t4)
            | (.ok qm, t4) => (.ok qm, t0 ++ t1 ++ t2 ++ t3 ++ t4)

/-- The handler dispatch table of `ConsumeMessages`: the switch on
`qm.Service`. -/
def dispatchTable (service : String) : Option Handler :=
  if service = DatabaseFileAddQueue then some .processDatabaseFileAdds
  else if service = IpfsPinQueue then some .proccessIPFSPins
  else if service = IpfsFileQueue then some .proccessIPFSFiles
  else if service = EmailSendQueue then some .processMailSends
  else if service = IpnsEntryQueue then some .processIPNSEntryCreationRequests
  else if service = IpfsKeyCreationQueue then some .processIPFSKeyCreation
  else if service = IpfsClusterPinQueue then some .processIPFSClusterPins
  else none

/-- `Manager.ConsumeMessages`: opens the database, binds the queue to its
exchange when the manager's exchange is one of the three recognized
exchanges, opens the consumption stream with auto-ack disabled, then
dispatches on `qm.Service`; an unrecognized service yields the error
`"invalid queue name"`.  The dispatched handler is returned in place of
running it. -/
def ConsumeMessages (env : Env Body) (qm : Manager) (consumer : String) :
    Except String Handler × List (Op Body) :=
  if env.dbOk then
    let bindStep : Except String Unit × List (Op Body) :=
      if qm.ExchangeName = PinRemovalExchange ∨ qm.ExchangeName = PinExchange ∨
          qm.ExchangeName = IpfsKeyExchange then
        if env.queueBindOk qm.QueueName qm.ExchangeName then
          (.ok (), [.queueBind qm.QueueName "" qm.ExchangeName false])
        else
          (.error "queue bind failed", [.queueBind qm.QueueName "" qm.ExchangeName false])
      else (.ok (), [])
    match bindStep with
    | (.error e, t) => (.error e, .dbOpen :: t)
    | (.ok _, t) =>
      let consumeOp : Op Body := .consume qm.QueueName consumer false false false false
      if env.consumeOk qm.QueueName then
        match dispatchTable qm.Service with
        | some h => (.ok h, .dbOpen :: t ++ [consumeOp])
        | none => (.error "invalid queue name", .dbOpen :: t ++ [consumeOp])
      else
        (.error "consume failed", .dbOpen :: t ++ [consumeOp])
  else
    (.error "db open failed", [.dbOpen])

/-- `Manager.PublishMessageWithExchange`: rejects exchange names outside
the allow-list before doing anything else; otherwise marshals the body and
publishes it persistently to the exchange. -/
def PublishMessageWithExchange (env : Env Body) (_qm : Manager)
    (body : Body) (exchangeName : String) :
    Except String Unit × List (Op Body) :=
  if exchangeName = PinExchange ∨ exchangeName = PinRemovalExchange ∨
      exchangeName = IpfsKeyExchange then
    match env.marshalRes body with
    | .error e => (.error e, [.marshal body])
    | .ok bytes =>
      let pubOp : Op Body :=
        .publish exchangeName "" false false amqpPersistent "text/plain" bytes
      if env.publishOk then (.ok (), [.marshal body, pubOp])
      else (.error "publish failed", [.marshal body, pubOp])
  else
    (.error "invalid exchange name provided", [])

/-- `Manager.PublishMessage`: marshals the body, then dereferences the
manager's queue pointer for the routing key and publishes persistently to
the default exchange.  A `none` result models the nil-pointer crash when
`qm.queue` was never set by `DeclareQueue`. -/
def PublishMessage (env : Env Body) (qm : Manager) (body : Body) :
    Option (Except String Unit × List (Op Body)) :=
  match env.marshalRes body with
  | .error e => some (.error e, [.marshal body])
  | .ok bytes =>
    match qm.queue with
    | none => none
    | some qName =>
      let pubOp : Op Body :=
        .publish "" qName false false amqpPersistent "text/plain" bytes
      if env.publishOk then some (.ok (), [.marshal body, pubOp])
      else some (.error "publish failed", [.marshal body, pubOp])

/-- `Manager.Close`: closes the channel, logging the outcome, then closes
the connection, logging the outcome. -/
def Close (env : Env Body) (_qm : Manager) : List (Op Body) :=
  (if env.channelCloseOk then
    [Op.channelClose, Op.logInfo "properly shutdown channel"]
  else
    [Op.channelClose, Op.logError "failed to properly close channel"]) ++
  (if env.connectionCloseOk then
    [Op.connectionClose, Op.logInfo "properly shutdown connnetion"]
  else
    [Op.connectionClose, Op.logError "failed to properly close connection"])

/-- Recognizer for queue-bind operations in a trace. -/
def isQueueBindOp : Op Body → Bool
  | .queueBind _ _ _ _ => true
  | _ => false

/-- Recognizer for queue-declare operations in a trace. -/
def isQueueDeclareOp : Op Body → Bool
  | .queueDeclare _ _ _ _ _ => true
  | _ => false

/-- Recognizer for publish operations in a trace. -/
def isPublishOp : Op Body → Bool
  | .publish _ _ _ _ _ _ _ => true
  | _ => false

/-- A concrete all-succeeding environment over trivial payloads, used to
evaluate the model at concrete inputs. -/
def envU : Env Unit :=
  { dialOk := true
    channelOpenOk := true
    qosOk := true
    logFileOk := true
    hostnameRes := .ok "node1"
    exchangeDeclareOk := fun _ => true
    queueDeclareOk := fun _ => true
    queueBindOk := fun _ _ => true
    consumeOk := fun _ => true
    marshalRes := fun _ => .ok [110]
    publishOk := true
    dbOk := true
    channelCloseOk := true
    connectionCloseOk := true }

/-- A concrete manager configured with an unrecognized category identity. -/
def qmBogus : Manager :=
  { QueueName := "bogus", Service := "bogus", ExchangeName := "",
    queue := some "bogus", hasLogger := false }

/-- A concrete manager configured for the IPFS pin category, as a consumer
built by `Initialize` would be. -/
def qmPin : Manager :=
  { QueueName := "node1+" ++ IpfsPinQueue, Service := IpfsPinQueue,
    ExchangeName := PinExchange, queue := some ("node1+" ++ IpfsPinQueue),
    hasLogger := false }

/-- Claim C3: publishing to an exchange outside the allow-list
(PinExchange, PinRemovalExchange, IpfsKeyExchange) returns the
invalid-exchange error with an empty operation trace: no serialization and
no broker publish is attempted. -/
theorem publishWithExchange_invalid_exchange
    (env : Env Body) (qm : Manager) (body : Body) (ex : String)
    (hex : ex ∉ [PinExchange, PinRemovalExchange, IpfsKeyExchange]) :
    PublishMessageWithExchange env qm body ex =
      (.error "invalid exchange name provided", []) := by
  simp only [List.mem_cons, List.mem_singleton, not_or] at hex
  obtain ⟨h1, h2, h3⟩ := hex
  simp [PublishMessageWithExchange, h1, h2, h3]

/-- Witness for C3 at the concrete exchange name "bogus". -/
theorem publishWithExchange_invalid_exchange_witness :
    PublishMessageWithExchange envU qmBogus () "bogus" =
      (.error "invalid exchange name provided", []) :=
  publishWithExchange_invalid_exchange envU qmBogus () "bogus" (by decide)

/-- Claim C6: `DeclareQueue` declares the manager's queue durable
(durable = true), with auto-delete disabled and exclusivity disabled. -/
theorem declareQueue_durable_flags (env : Env Body) (qm : Manager) :
    ∃ rest, (DeclareQueue env qm).2 =
      Op.queueDeclare qm.QueueName true false false false :: rest := by
  unfold DeclareQueue
  split
  · exact ⟨_, rfl⟩
  · exact ⟨_, rfl⟩

/-- Claim C7: every successful `OpenChannel` call has set a
quality-of-service bound of 10 (prefetch count 10, prefetch size 0,
non-global) on the channel. -/
theorem openChannel_qos_ten (env : Env Body) (qm qm' : Manager)
    (h : (OpenChannel env qm).1 = .ok qm') :
    Op.qos 10 0 false ∈ (OpenChannel env qm).2 := by
  by_cases hc : env.channelOpenOk <;> by_cases hq : env.qosOk <;>
    simp [OpenChannel, hc, hq] at h ⊢

/-- Witness for C7 at a concrete manager and environment. -/
theorem openChannel_qos_ten_witness :
    Op.qos 10 0 false ∈ (OpenChannel envU qmBogus).2 :=
  openChannel_qos_ten envU qmBogus qmBogus rfl

/-- Claim C8: `Close` closes the channel first, then the connection; the
connection close is attempted whatever the channel close's outcome, and
each of the two outcomes is logged (info on success, error on failure). -/
theorem close_both_attempted_and_reported (env : Env Body) (qm : Manager) :
    Close env qm =
      [Op.channelClose,
       if env.channelCloseOk then Op.logInfo "properly shutdown channel"
       else Op.logError "failed to properly close channel",
       Op.connectionClose,
       if env.connectionCloseOk then Op.logInfo "properly shutdown connnetion"
       else Op.logError "failed to properly close connection"] := by
  by_cases h1 : env.channelCloseOk <;> by_cases h2 : env.connectionCloseOk <;>
    simp [Close, h1, h2]

/-- True exactly on consume operations whose auto-ack flag is set. -/
def consumeAutoAckSet : Op Body → Bool
  | .consume _ _ a _ _ _ => a
  | _ => false

/-- Claim C5: both publish paths marshal the payload first; a marshal
failure is returned with no publish operation performed, and a marshal
success leads to a publish carrying the persistent delivery mode and the
marshalled bytes. -/
theorem publish_marshal_first_persistent
    (env : Env Body) (qm : Manager) (body : Body) (ex : String)
    (hex : ex ∈ [PinExchange, PinRemovalExchange, IpfsKeyExchange]) :
    match env.marshalRes body with
    | .error e =>
        PublishMessageWithExchange env qm body ex = (.error e, [.marshal body]) ∧
        PublishMessage env qm body = some (.error e, [.marshal body])
    | .ok bytes =>
        (PublishMessageWithExchange env qm body ex).2 =
          [.marshal body,
           .publish ex "" false false amqpPersistent "text/plain" bytes] ∧
        (PublishMessage env qm body).map Prod.snd =
          qm.queue.map fun qn =>
            [Op.marshal body,
             Op.publish "" qn false false amqpPersistent "text/plain" bytes] := by
  have hex3 : ex = PinExchange ∨ ex = PinRemovalExchange ∨ ex = IpfsKeyExchange := by
    simpa using hex
  cases hm : env.marshalRes body with
  | error e =>
      refine ⟨?_, ?_⟩
      · simp [PublishMessageWithExchange, if_pos hex3, hm]
      · simp [PublishMessage, hm]
  | ok bytes =>
      refine ⟨?_, ?_⟩
      · by_cases hp : env.publishOk <;>
          simp [PublishMessageWithExchange, if_pos hex3, hm, hp]
      · cases hq : qm.queue with
        | none => simp [PublishMessage, hm, hq]
        | some qn => by_cases hp : env.publishOk <;> simp [PublishMessage, hm, hq, hp]

/-- Witness for C5 at the pin exchange with an all-succeeding environment. -/
theorem publish_marshal_first_persistent_witness :
    match envU.marshalRes () with
    | .error e =>
        PublishMessageWithExchange envU qmPin () PinExchange =
          (.error e, [.marshal ()]) ∧
        PublishMessage envU qmPin () = some (.error e, [.marshal ()])
    | .ok bytes =>
        (PublishMessageWithExchange envU qmPin () PinExchange).2 =
          [.marshal (),
           .publish PinExchange "" false false amqpPersistent "text/plain" bytes] ∧
        (PublishMessage envU qmPin ()).map Prod.snd =
          qmPin.queue.map fun qn =>
            [Op.marshal (),
             Op.publish "" qn false false amqpPersistent "text/plain" bytes] :=
  publish_marshal_first_persistent envU qmPin () PinExchange (by decide)

/-- Claim C4: `ConsumeMessages` never opens a consumption stream with
auto-acknowledge enabled, and for a manager whose exchange is one of the
three recognized exchanges the queue is bound to that exchange strictly
before the consume operation is issued. -/
theorem consumeMessages_no_autoack_bind_first
    (env : Env Body) (qm : Manager) (consumer : String)
    (hdb : env.dbOk = true)
    (hbind : env.queueBindOk qm.QueueName qm.ExchangeName = true) :
    (ConsumeMessages env qm consumer).2.filter consumeAutoAckSet = [] ∧
    ((qm.ExchangeName = PinRemovalExchange ∨ qm.ExchangeName = PinExchange ∨
        qm.ExchangeName = IpfsKeyExchange) →
      (ConsumeMessages env qm consumer).2 =
        [Op.dbOpen, Op.queueBind qm.QueueName "" qm.ExchangeName false,
         Op.consume qm.QueueName consumer false false false false]) := by
  by_cases hax : qm.ExchangeName = PinRemovalExchange ∨ qm.ExchangeName = PinExchange ∨
      qm.ExchangeName = IpfsKeyExchange
  · by_cases hco : env.consumeOk qm.QueueName <;>
      cases hdt : dispatchTable qm.Service <;>
        simp [ConsumeMessages, hdb, hbind, if_pos hax, hco, hdt, consumeAutoAckSet]
  · by_cases hco : env.consumeOk qm.QueueName <;>
      cases hdt : dispatchTable qm.Service <;>
        simp [ConsumeMessages, hdb, hbind, if_neg hax, hax, hco, hdt, consumeAutoAckSet]

/-- Witness for C4 at a concrete pin-category manager. -/
theorem consumeMessages_no_autoack_bind_first_witness :
    (ConsumeMessages envU qmPin "cons").2.filter consumeAutoAckSet = [] ∧
    ((qmPin.ExchangeName = PinRemovalExchange ∨ qmPin.ExchangeName = PinExchange ∨
        qmPin.ExchangeName = IpfsKeyExchange) →
      (ConsumeMessages envU qmPin "cons").2 =
        [Op.dbOpen, Op.queueBind qmPin.QueueName "" qmPin.ExchangeName false,
         Op.consume qmPin.QueueName "cons" false false false false]) :=
  consumeMessages_no_autoack_bind_first envU qmPin "cons" rfl rfl

/-- A service identity outside the recognized enumeration has no entry in
the dispatch table. -/
theorem dispatchTable_eq_none_of_not_mem (s : String)
    (h : s ∉ [DatabaseFileAddQueue, IpfsPinQueue, IpfsFileQueue, EmailSendQueue,
      IpnsEntryQueue, IpfsKeyCreationQueue, IpfsClusterPinQueue]) :
    dispatchTable s = none := by
  simp only [List.mem_cons, List.mem_singleton, not_or] at h
  obtain ⟨h1, h2, h3, h4, h5, h6, h7⟩ := h
  simp [dispatchTable, h1, h2, h3, h4, h5, h6, h7]

/-- Counterexample to C1 as stated: with the unrecognized category
"bogus", `ConsumeMessages` does fail with "invalid queue name", but a
broker consume call is present in the trace produced before that failure
is returned. -/
theorem consumeMessages_broker_call_before_invalid_name :
    (ConsumeMessages envU qmBogus "worker").1 = .error "invalid queue name" ∧
    Op.consume "bogus" "worker" false false false false ∈
      (ConsumeMessages envU qmBogus "worker").2 :=
  ⟨rfl, by decide⟩

/-- Claim C1 (amended): for a category identity outside the recognized
set, `ConsumeMessages` fails with the error "invalid queue name", but only
after the broker consume call (and any queue bind) has been issued: the
dispatch check runs after the consumption stream is opened. -/
theorem consumeMessages_unrecognized_category
    (env : Env Body) (qm : Manager) (consumer : String)
    (hserv : qm.Service ∉ [DatabaseFileAddQueue, IpfsPinQueue, IpfsFileQueue,
      EmailSendQueue, IpnsEntryQueue, IpfsKeyCreationQueue, IpfsClusterPinQueue])
    (hdb : env.dbOk = true)
    (hbind : env.queueBindOk qm.QueueName qm.ExchangeName = true)
    (hcons : env.consumeOk qm.QueueName = true) :
    (ConsumeMessages env qm consumer).1 = .error "invalid queue name" ∧
    Op.consume qm.QueueName consumer false false false false ∈
      (ConsumeMessages env qm consumer).2 := by
  have hdt := dispatchTable_eq_none_of_not_mem qm.Service hserv
  by_cases hax : qm.ExchangeName = PinRemovalExchange ∨ qm.ExchangeName = PinExchange ∨
      qm.ExchangeName = IpfsKeyExchange
  · simp [ConsumeMessages, hdb, hbind, if_pos hax, hcons, hdt]
  · simp [ConsumeMessages, hdb, hbind, if_neg hax, hcons, hdt]

/-- Witness for C1 (amended) at the concrete category "bogus". -/
theorem consumeMessages_unrecognized_category_witness :
    (ConsumeMessages envU qmBogus "w").1 = .error "invalid queue name" ∧
    Op.consume qmBogus.QueueName "w" false false false false ∈
      (ConsumeMessages envU qmBogus "w").2 :=
  consumeMessages_unrecognized_category envU qmBogus "w" (by decide) rfl rfl rfl

/-- True on operations that are not queue declarations. -/
def isNotQueueDeclareOp : Op Body → Bool :=
  fun op => ! isQueueDeclareOp op

/-- Recognizer for exchange-declare operations in a trace. -/
def isExchangeDeclareOp : Op Body → Bool
  | .exchangeDeclare _ _ _ _ _ _ => true
  | _ => false

/-- Counterexample to C2 as stated: a successful consumer-side
initialization of the pin category declares the queue but performs no
queue-to-exchange binding at all, so the binding is not declared before
the queue is declared. -/
theorem initOrder_no_bind_before_queue :
    (Initialize envU IpfsPinQueue "url" false false).1.toOption.isSome = true ∧
    (Initialize envU IpfsPinQueue "url" false false).2.filter isQueueBindOp = [] ∧
    (Initialize envU IpfsPinQueue "url" false false).2.filter isQueueDeclareOp ≠ [] := by
  decide

/-- Claim C2 (amended): for the exchange-backed categories, `Initialize`
declares the fan-out exchange before the queue is declared (the queue
binding is instead performed by `ConsumeMessages`), and a publish-only
initialization performs no queue declaration at all. -/
theorem initOrder_exchange_before_queue
    (env : Env Body) (q url host : String) (service : Bool)
    (hq : q = IpfsPinQueue ∨ q = IpfsKeyCreationQueue)
    (hdial : env.dialOk = true) (hch : env.channelOpenOk = true)
    (hqos : env.qosOk = true) (hlogf : env.logFileOk = true)
    (hhost : env.hostnameRes = .ok host)
    (hexd : ∀ e, env.exchangeDeclareOk e = true)
    (hqd : ∀ n, env.queueDeclareOk n = true) :
    ((Initialize env q url false service).2.takeWhile
        isNotQueueDeclareOp).filter isExchangeDeclareOp =
      [Op.exchangeDeclare (if q = IpfsPinQueue then PinExchange else IpfsKeyExchange)
        "fanout" true false false false] ∧
    (Initialize env q url false service).2.filter isQueueDeclareOp =
      [Op.queueDeclare (host ++ "+" ++ q) true false false false] ∧
    (Initialize env q url true service).2.filter isQueueDeclareOp = [] := by
  have hne : ¬ (IpfsKeyCreationQueue = IpfsPinQueue) := by decide
  rcases hq with rfl | rfl <;> cases service <;>
    simp [Initialize, setupConnection, OpenChannel, setupLogging, parseQueueName,
      DeclareIPFSPinExchange, DeclareIPFSKeyExchange, DeclareQueue,
      hdial, hch, hqos, hlogf, hhost, hexd, hqd, hne,
      isQueueDeclareOp, isExchangeDeclareOp, isNotQueueDeclareOp,
      List.takeWhile, List.filter]

/-- Witness for C2 (amended) at the pin category with host "node1". -/
theorem initOrder_exchange_before_queue_witness :
    ((Initialize envU IpfsPinQueue "u" false false).2.takeWhile
        isNotQueueDeclareOp).filter isExchangeDeclareOp =
      [Op.exchangeDeclare (if IpfsPinQueue = IpfsPinQueue then PinExchange
          else IpfsKeyExchange) "fanout" true false false false] ∧
    (Initialize envU IpfsPinQueue "u" false false).2.filter isQueueDeclareOp =
      [Op.queueDeclare ("node1" ++ "+" ++ IpfsPinQueue) true false false false] ∧
    (Initialize envU IpfsPinQueue "u" true false).2.filter isQueueDeclareOp = [] :=
  initOrder_exchange_before_queue envU IpfsPinQueue "u" "node1" false
    (Or.inl rfl) rfl rfl rfl rfl rfl (fun _ => rfl) (fun _ => rfl)

/-- Claim C9: a manager returned by `Initialize` carries the original
category name in `Service`, carries the host-prefixed name in `QueueName`
exactly for the two host-scoped categories, and `ConsumeMessages` on such
a manager dispatches according to the original category name. -/
theorem manager_names_dispatch
    (env : Env Body) (q url consumer host : String) (publish service : Bool)
    (qm : Manager)
    (hdial : env.dialOk = true) (hch : env.channelOpenOk = true)
    (hqos : env.qosOk = true) (hlogf : env.logFileOk = true)
    (hhost : env.hostnameRes = .ok host)
    (hexd : ∀ e, env.exchangeDeclareOk e = true)
    (hqd : ∀ n, env.queueDeclareOk n = true)
    (hdb : env.dbOk = true)
    (hbindall : ∀ a b, env.queueBindOk a b = true)
    (hconsall : ∀ n, env.consumeOk n = true)
    (hok : (Initialize env q url publish service).1 = .ok qm) :
    qm.Service = q ∧
    qm.QueueName =
      (if q = IpfsPinQueue ∨ q = IpfsKeyCreationQueue then host ++ "+" ++ q else q) ∧
    (ConsumeMessages env qm consumer).1.toOption = dispatchTable q := by
  have hne : ¬ (IpfsKeyCreationQueue = IpfsPinQueue) := by decide
  have hmemPin : PinExchange = PinRemovalExchange ∨ PinExchange = PinExchange ∨
      PinExchange = IpfsKeyExchange := by decide
  have hmemKey : IpfsKeyExchange = PinRemovalExchange ∨ IpfsKeyExchange = PinExchange ∨
      IpfsKeyExchange = IpfsKeyExchange := by decide
  have hmemNone : ¬ (("" : String) = PinRemovalExchange ∨ ("" : String) = PinExchange ∨
      ("" : String) = IpfsKeyExchange) := by decide
  have hpin : dispatchTable IpfsPinQueue = some Handler.proccessIPFSPins := by decide
  have hkey : dispatchTable IpfsKeyCreationQueue =
      some Handler.processIPFSKeyCreation := by decide
  by_cases h1 : q = IpfsPinQueue
  · subst h1
    cases publish <;> cases service <;>
      (simp [Initialize, setupConnection, OpenChannel, setupLogging, parseQueueName,
         DeclareIPFSPinExchange, DeclareQueue, hdial, hch, hqos, hlogf, hhost,
         hexd, hqd] at hok
       subst hok
       refine ⟨rfl, by simp, ?_⟩
       simp [ConsumeMessages, hdb, hbindall, hconsall, if_pos hmemPin, hpin,
         Except.toOption])
  · by_cases h2 : q = IpfsKeyCreationQueue
    · subst h2
      cases publish <;> cases service <;>
        (simp [Initialize, setupConnection, OpenChannel, setupLogging, parseQueueName,
           DeclareIPFSKeyExchange, DeclareQueue, hdial, hch, hqos, hlogf, hhost,
           hexd, hqd, hne] at hok
         subst hok
         refine ⟨rfl, by simp [hne], ?_⟩
         simp [ConsumeMessages, hdb, hbindall, hconsall, if_pos hmemKey, hkey,
           Except.toOption])
    · cases publish <;> cases service <;>
        (simp [Initialize, setupConnection, OpenChannel, setupLogging, parseQueueName,
           DeclareQueue, hdial, hch, hqos, hlogf, hhost, hexd, hqd, h1, h2] at hok
         subst hok
         refine ⟨rfl, by simp [h1, h2], ?_⟩
         cases hdt : dispatchTable q <;>
           simp [ConsumeMessages, hdb, hbindall, hconsall, hmemNone, hdt,
             Except.toOption])

/-- Witness for C9 at the pin category, host "node1", consumer-side. -/
theorem manager_names_dispatch_witness :
    qmPin.Service = IpfsPinQueue ∧
    qmPin.QueueName =
      (if IpfsPinQueue = IpfsPinQueue ∨ IpfsPinQueue = IpfsKeyCreationQueue then
        "node1" ++ "+" ++ IpfsPinQueue
      else IpfsPinQueue) ∧
    (ConsumeMessages envU qmPin "c").1.toOption = dispatchTable IpfsPinQueue :=
  manager_names_dispatch envU IpfsPinQueue "u" "c" "node1" false false qmPin
    rfl rfl rfl rfl rfl (fun _ => rfl) (fun _ => rfl) rfl (fun _ _ => rfl)
    (fun _ => rfl) rfl

/-- Claim C10: a manager built publish-only has a nil queue reference;
`PublishMessage` dereferences that reference whenever marshalling
succeeds, so it crashes on such a manager, while it is total on any
manager produced by a successful `DeclareQueue`. -/
theorem publish_only_queue_nil
    (env : Env Body) (q url host : String) (service : Bool)
    (qm qm₂ qm₃ : Manager) (body : Body)
    (hdial : env.dialOk = true) (hch : env.channelOpenOk = true)
    (hqos : env.qosOk = true) (hlogf : env.logFileOk = true)
    (hhost : env.hostnameRes = .ok host)
    (hexd : ∀ e, env.exchangeDeclareOk e = true)
    (hok : (Initialize env q url true service).1 = .ok qm)
    (hdq : (DeclareQueue env qm₂).1 = .ok qm₃) :
    qm.queue = none ∧
    (match env.marshalRes body with
     | .ok _ => PublishMessage env qm body = none
     | .error e => PublishMessage env qm body = some (.error e, [Op.marshal body])) ∧
    PublishMessage env qm₃ body ≠ none := by
  have hne : ¬ (IpfsKeyCreationQueue = IpfsPinQueue) := by decide
  have hq3 : qm₃.queue = some qm₂.QueueName := by
    by_cases hd : env.queueDeclareOk qm₂.QueueName
    · simp [DeclareQueue, hd] at hdq
      subst hdq
      rfl
    · simp [DeclareQueue, hd] at hdq
  have hqueue : qm.queue = none := by
    by_cases h1 : q = IpfsPinQueue
    · subst h1
      cases service <;>
        (simp [Initialize, setupConnection, OpenChannel, setupLogging, parseQueueName,
           DeclareIPFSPinExchange, hdial, hch, hqos, hlogf, hhost, hexd] at hok
         subst hok
         rfl)
    · by_cases h2 : q = IpfsKeyCreationQueue
      · subst h2
        cases service <;>
          (simp [Initialize, setupConnection, OpenChannel, setupLogging, parseQueueName,
             DeclareIPFSKeyExchange, hdial, hch, hqos, hlogf, hhost, hexd, hne] at hok
           subst hok
           rfl)
      · cases service <;>
          (simp [Initialize, setupConnection, OpenChannel, setupLogging,
             hdial, hch, hqos, hlogf, hhost, h1, h2] at hok
           subst hok
           rfl)
  refine ⟨hqueue, ?_, ?_⟩
  · cases hm : env.marshalRes body with
    | error e => simp [PublishMessage, hm]
    | ok bytes => simp [PublishMessage, hm, hqueue]
  · cases hm : env.marshalRes body with
    | error e => simp [PublishMessage, hm]
    | ok bytes =>
        by_cases hp : env.publishOk <;> simp [PublishMessage, hm, hq3, hp]

/-- A concrete manager for a plain (non-exchange) category, as built by a
publish-only initialization. -/
def qmPlain : Manager :=
  { QueueName := "plainq", Service := "plainq", ExchangeName := "",
    queue := none, hasLogger := false }

/-- Witness for C10 at a plain category, publish-only. -/
theorem publish_only_queue_nil_witness :
    qmPlain.queue = none ∧
    (match envU.marshalRes () with
     | .ok _ => PublishMessage envU qmPlain () = none
     | .error e => PublishMessage envU qmPlain () = some (.error e, [Op.marshal ()])) ∧
    PublishMessage envU qmBogus () ≠ none :=
  publish_only_queue_nil envU "plainq" "u" "node1" false
    qmPlain qmBogus qmBogus () rfl rfl rfl rfl rfl (fun _ => rfl) rfl rfl

end Temporal
